import Mathlib

/-!
Verification of `tastypie-utils` (`resources.py`): a shallow embedding of
`ModelResourceUtils.dehydrate`, `ModelResourceUtils.alter_list_data_to_serialize`,
`MultipartResource.deserialize` / `put_detail` / `patch_detail`, and the
`authorize_api` decorator's wrapped view, together with theorems about them.

Modelling conventions:
* Python dicts (`bundle.data`, the data mapping, `request.POST`, `request.FILES`,
  `request.META`, `request.GET`) are association lists `List (String × α)`;
  lookup takes the first matching entry (keys of a Python dict are unique, so
  the choice of occurrence is immaterial).
* `dict.get(k, default)` returning `None` is `Option`; Python truthiness of the
  retrieved value (`None` and `""` are falsy) is `pyFalsy`.
* A raised `KeyError` is `Option.none` in the result; exceptions in the
  decorator are an explicit `PyExc` error type threaded with `Except`.
* `str.split(",")` is `splitComma`, `str.startswith(p)` is a prefix test on
  the character lists.
* Framework collaborators (the superclass `deserialize`/`put_detail`/
  `patch_detail`, `method_check`, `throttle_check`, `is_authenticated`, the
  wrapped view function) are opaque function parameters.
-/

namespace TastypieUtils

/-- Lookup of the first matching entry in an association list: Python
`d[k]` / `d.get(k)`. -/
def dlookup {α : Type} : List (String × α) → String → Option α
  | [], _ => none
  | (k1, v) :: rest, k => if k1 = k then some v else dlookup rest k

/-- The keys of a Python dict: `d.keys()`. -/
def dkeys {α : Type} (d : List (String × α)) : List String :=
  d.map Prod.fst

/-- Python `s.split(",")` on the character list: splits at every comma,
`"" ↦ [""]`, `"a,b" ↦ ["a","b"]`, `"a,," ↦ ["a","",""]`. -/
def splitCommaAux : List Char → List Char → List String
  | [], acc => [String.mk acc.reverse]
  | c :: cs, acc =>
      if c = ',' then String.mk acc.reverse :: splitCommaAux cs []
      else splitCommaAux cs (c :: acc)

/-- Python `s.split(",")`. -/
def splitComma (s : String) : List String :=
  splitCommaAux s.data []

/-- Python `s.startswith(p)`. -/
def pyStartsWith (s p : String) : Bool :=
  p.data.isPrefixOf s.data

/-- Python truthiness of a `dict.get` result: `None` and `""` are falsy. -/
def pyFalsy : Option String → Bool
  | none => true
  | some s => s = ""

/-- The dict comprehension `{k: d[k] for k in ks}`: `none` models the
`KeyError` raised when some `k` is not a key of `d`.  Duplicates in `ks` keep
two identical entries in the association list, which denote the same dict. -/
def dcomp {α : Type} (d : List (String × α)) : List String → Option (List (String × α))
  | [] => some []
  | k :: ks =>
    match dlookup d k, dcomp d ks with
    | some v, some rest => some ((k, v) :: rest)
    | _, _ => none

/-- A tastypie bundle: the request's `GET` query dict plus the in-flight
response `data` dict (values of type `α`). -/
structure Bundle (α : Type) where
  requestGET : List (String × String)
  data : List (String × α)
  deriving DecidableEq, Repr

/-- Embedding of `ModelResourceUtils.dehydrate` (resources.py lines 35-57).
Reads the
`include_fields` / `exclude_fields` query parameters; passes the bundle
through unchanged when both are falsy; otherwise rebuilds `bundle.data` by a
dict comprehension over either the split `include_fields` list or the set
difference of the data keys and the split `exclude_fields` list.  `none`
models the `KeyError` the comprehension raises on a missing key. -/
def dehydrate {α : Type} (b : Bundle α) : Option (Bundle α) :=
  let include_fields := dlookup b.requestGET "include_fields"
  let exclude_fields := dlookup b.requestGET "exclude_fields"
  if pyFalsy exclude_fields && pyFalsy include_fields then
    some b
  else
    let includeKeys :=
      if pyFalsy include_fields then
        ((dkeys b.data).dedup).filter
          (fun k => decide (k ∉ splitComma (exclude_fields.getD "")))
      else
        splitComma (include_fields.getD "")
    (dcomp b.data includeKeys).map (fun d => { b with data := d })

/-- Embedding of `ModelResourceUtils.alter_list_data_to_serialize`
(resources.py lines 59-67).  When the `meta_only` query parameter is truthy, returns the mapping
`{'meta': data['meta']}` (`none` models the `KeyError` when `data` has no
`'meta'` key); otherwise returns `data` unchanged. -/
def alter_list_data_to_serialize {α : Type}
    (requestGET : List (String × String)) (data : List (String × α)) :
    Option (List (String × α)) :=
  if !(pyFalsy (dlookup requestGET "meta_only")) then
    (dlookup data "meta").map (fun v => [("meta", v)])
  else
    some data

/-- A Django request as seen by `MultipartResource`: the `META` headers dict,
the `POST` and `FILES` query dicts (values of type `β`), and the `_body`
attribute (`none` models `not hasattr(request, '_body')`). -/
structure HttpRequest (β : Type) where
  META : List (String × String)
  POST : List (String × β)
  FILES : List (String × β)
  body : Option String
  deriving DecidableEq, Repr

/-- Models `QueryDict.copy()` followed by `update(FILES)`: Django's
`MultiValueDict.update` appends the other dict's entries. -/
def qdUpdate {β : Type} (p f : List (String × β)) : List (String × β) :=
  p ++ f

/-- The result of `MultipartResource.deserialize`: either a form-data query
dict produced by the two recognized branches, or whatever the superclass
`deserialize` returned. -/
inductive DeserOut (β σ : Type) where
  | formData (d : List (String × β))
  | superOut (r : σ)
  deriving DecidableEq, Repr

/-- The format resolution at the top of `MultipartResource.deserialize`
(resources.py lines 107-108): `if not format: format =
request.META.get('CONTENT_TYPE', 'application/json')` — both `None` and the
empty string are falsy. -/
def resolveFormat {β : Type} (req : HttpRequest β) (format : Option String) : String :=
  match format with
  | none => (dlookup req.META "CONTENT_TYPE").getD "application/json"
  | some f =>
      if f = "" then (dlookup req.META "CONTENT_TYPE").getD "application/json" else f

/-- Embedding of `MultipartResource.deserialize` (resources.py lines
105-118), with the
superclass `deserialize` as an opaque parameter (`δ` is the type of the raw
`data` argument, `σ` the superclass result type). -/
def deserialize {β δ σ : Type}
    (superDeserialize : HttpRequest β → δ → String → σ)
    (req : HttpRequest β) (data : δ) (format : Option String) : DeserOut β σ :=
  let fmt := resolveFormat req format
  if fmt = "application/x-www-form-urlencoded" then
    .formData req.POST
  else if pyStartsWith fmt "multipart/form-data" then
    .formData (qdUpdate req.POST req.FILES)
  else
    .superOut (superDeserialize req data fmt)

/-- The guard shared by `MultipartResource.put_detail` and `patch_detail`
(resources.py lines 121-122 and 126-127): when `CONTENT_TYPE` starts with
`multipart/form-data` and the request has no `_body` attribute, set
`request._body = ''`. -/
def ensureMultipartBody {β : Type} (req : HttpRequest β) : HttpRequest β :=
  if pyStartsWith ((dlookup req.META "CONTENT_TYPE").getD "") "multipart/form-data"
      && req.body.isNone then
    { req with body := some "" }
  else
    req

/-- Embedding of `MultipartResource.put_detail` (resources.py lines
120-123), with the
superclass `put_detail` as an opaque parameter. -/
def put_detail {β ρ : Type} (superPutDetail : HttpRequest β → ρ)
    (req : HttpRequest β) : ρ :=
  superPutDetail (ensureMultipartBody req)

/-- Embedding of `MultipartResource.patch_detail` (resources.py lines
125-128), with the
superclass `patch_detail` as an opaque parameter. -/
def patch_detail {β ρ : Type} (superPatchDetail : HttpRequest β → ρ)
    (req : HttpRequest β) : ρ :=
  superPatchDetail (ensureMultipartBody req)

/-- A Python exception as raised by the checks or the view inside
`authorize_api`: `ImmediateHttpResponse` carries its prepared `response` of
type `ρ`, every other exception is abstracted to a tag. -/
inductive PyExc (ρ : Type) where
  | immediateHttpResponse (response : ρ)
  | other (tag : String)
  deriving DecidableEq, Repr

/-- The `_wrapped_view` produced by `authorize_api(resource, allowed_methods,
custom_auth)` (resources.py lines 137-154).  The resource's collaborators are
opaque parameters: `method_check` (taking the request and `allowed_methods`),
`throttle_check`, `is_authenticated` (taking the currently installed
`resource._meta.authentication` of type `ν` and the request of type `τ`), and
the decorated `view_func` returning a response of type `ρ`.  The mutable
`resource._meta.authentication` is threaded explicitly: the function takes
its value `auth` before the call and returns the outcome (a normal response
in `Except.ok`, a propagated exception in `Except.error`) paired with its
value after the call.  `method_check` and `throttle_check` run first, outside
the `try`; a truthy `custom_auth` is substituted for the duration of
`is_authenticated`; an `ImmediateHttpResponse` from `is_authenticated` is
returned as `ex.response`; the `finally` restores the saved authentication
before `view_func` runs. -/
def wrapped_view {τ ν ρ : Type}
    (method_check : τ → List String → Except (PyExc ρ) Unit)
    (throttle_check : τ → Except (PyExc ρ) Unit)
    (is_authenticated : ν → τ → Except (PyExc ρ) Unit)
    (view_func : τ → Except (PyExc ρ) ρ)
    (allowed_methods : List String)
    (custom_auth : Option ν)
    (request : τ) (auth : ν) : Except (PyExc ρ) ρ × ν :=
  match method_check request allowed_methods with
  | .error e => (.error e, auth)
  | .ok _ =>
    match throttle_check request with
    | .error e => (.error e, auth)
    | .ok _ =>
      let resource_auth := auth
      let authInstalled :=
        match custom_auth with
        | some ca => ca
        | none => auth
      match is_authenticated authInstalled request with
      | .error (.immediateHttpResponse resp) => (.ok resp, resource_auth)
      | .error e => (.error e, resource_auth)
      | .ok _ => (view_func request, resource_auth)

/-! Helper lemmas about the dict model. -/

theorem dlookup_isSome_iff_mem {α : Type} (d : List (String × α)) (k : String) :
    (dlookup d k).isSome = true ↔ k ∈ dkeys d := by
  induction d with
  | nil => simp [dlookup, dkeys]
  | cons p rest ih =>
    obtain ⟨k1, v⟩ := p
    by_cases hk : k1 = k
    · subst hk
      simp [dlookup, dkeys]
    · simp [dlookup, hk, dkeys] at ih ⊢
      rw [ih]
      constructor
      · exact Or.inr
      · rintro (h | h)
        · exact absurd h.symm hk
        · exact h

theorem mem_dkeys_of_dlookup {α : Type} {d : List (String × α)} {k : String}
    {v : α} (h : dlookup d k = some v) : k ∈ dkeys d := by
  rw [← dlookup_isSome_iff_mem, h]
  rfl

theorem dlookup_eq_none_of_not_mem {α : Type} {d : List (String × α)}
    {k : String} (h : k ∉ dkeys d) : dlookup d k = none := by
  cases hl : dlookup d k with
  | none => rfl
  | some v => exact absurd (mem_dkeys_of_dlookup hl) h

theorem dcomp_eq_none_of_missing {α : Type} {d : List (String × α)}
    {ks : List String} {f : String} (hf : f ∈ ks)
    (hnone : dlookup d f = none) : dcomp d ks = none := by
  induction ks with
  | nil => simp at hf
  | cons k ks ih =>
    rcases List.mem_cons.mp hf with h | h
    · subst h
      simp [dcomp, hnone]
    · rw [dcomp, ih h]
      cases dlookup d k <;> rfl

theorem dcomp_spec {α : Type} {d : List (String × α)} :
    ∀ {ks : List String}, (∀ k ∈ ks, k ∈ dkeys d) →
    ∃ r, dcomp d ks = some r ∧ dkeys r = ks ∧
      ∀ k ∈ ks, dlookup r k = dlookup d k := by
  intro ks
  induction ks with
  | nil => exact fun _ => ⟨[], rfl, rfl, by simp⟩
  | cons k ks ih =>
    intro hmem
    have hk : (dlookup d k).isSome = true :=
      (dlookup_isSome_iff_mem d k).mpr (hmem k (List.mem_cons_self k ks))
    obtain ⟨v, hv⟩ := Option.isSome_iff_exists.mp hk
    obtain ⟨r, hr, hkeys, hvals⟩ := ih (fun x hx => hmem x (List.mem_cons_of_mem k hx))
    refine ⟨(k, v) :: r, ?_, ?_, ?_⟩
    · rw [dcomp, hv, hr]
    · rw [dkeys, List.map_cons, ← dkeys, hkeys]
    · intro x hx
      by_cases hxk : k = x
      · subst hxk
        rw [dlookup, if_pos rfl, hv]
      · rw [dlookup, if_neg hxk]
        rcases List.mem_cons.mp hx with h | h
        · exact absurd h.symm hxk
        · exact hvals x h

theorem dkeys_dcomp {α : Type} {d : List (String × α)} :
    ∀ {ks : List String} {r : List (String × α)},
      dcomp d ks = some r → dkeys r = ks := by
  intro ks
  induction ks with
  | nil =>
    intro r h
    cases h
    rfl
  | cons k ks ih =>
    intro r h
    rw [dcomp] at h
    cases hv : dlookup d k with
    | none => rw [hv] at h; exact Option.noConfusion h
    | some v =>
      rw [hv] at h
      cases hc : dcomp d ks with
      | none => rw [hc] at h; exact Option.noConfusion h
      | some rest =>
        rw [hc] at h
        cases h
        rw [dkeys, List.map_cons, ← dkeys, ih hc]

theorem mem_dkeys_of_dcomp_some {α : Type} {d : List (String × α)}
    {ks : List String} {r : List (String × α)} {k : String}
    (h : dcomp d ks = some r) (hk : k ∈ ks) : k ∈ dkeys d := by
  by_contra hmem
  rw [dcomp_eq_none_of_missing hk (dlookup_eq_none_of_not_mem hmem)] at h
  exact Option.noConfusion h

theorem splitComma_ne_nil_arg {s : String} {ka kb : String}
    (h : splitComma s = [ka, kb]) : s ≠ "" := by
  intro hs
  subst hs
  simp [splitComma, splitCommaAux, String.data] at h

/-! Claim theorems. -/

/-- C1: when the request carries `include_fields` whose value splits (on
commas) into the two field names `ka, kb`, and both are keys of `bundle.data`
(with values `va, vb`), `dehydrate` returns the bundle whose data is exactly
the mapping `ka ↦ va, kb ↦ vb`: its key set is `{ka, kb}` and each key is
mapped to its original value. -/
theorem dehydrate_include_two_fields {α : Type} (b : Bundle α)
    (s ka kb : String) (va vb : α)
    (hinc : dlookup b.requestGET "include_fields" = some s)
    (hsplit : splitComma s = [ka, kb])
    (hva : dlookup b.data ka = some va)
    (hvb : dlookup b.data kb = some vb) :
    dehydrate b = some { b with data := [(ka, va), (kb, vb)] } ∧
    (dkeys ([(ka, va), (kb, vb)] : List (String × α))).toFinset = {ka, kb} ∧
    dlookup [(ka, va), (kb, vb)] ka = some va ∧
    dlookup [(ka, va), (kb, vb)] kb = some vb := by
  have hs : s ≠ "" := splitComma_ne_nil_arg hsplit
  refine ⟨?_, ?_, ?_, ?_⟩
  · simp [dehydrate, hinc, pyFalsy, hs, hsplit, dcomp, hva, hvb]
  · simp [dkeys]
  · rw [dlookup, if_pos rfl]
  · by_cases hk : ka = kb
    · subst hk
      have : va = vb := Option.some.inj (hva.symm.trans hvb)
      rw [dlookup, if_pos rfl, this]
    · rw [dlookup, if_neg hk, dlookup, if_pos rfl]

/-- C2: when the request carries `exclude_fields` with a single nonempty
field name `a` (its value contains no comma, so it splits into `[a]`) and no
`include_fields`, `dehydrate` returns a bundle whose data keys are exactly
the original keys minus `{a}`, each remaining key mapped to its original
value. -/
theorem dehydrate_exclude_field {α : Type} (b : Bundle α) (a : String)
    (hinc : dlookup b.requestGET "include_fields" = none)
    (hexc : dlookup b.requestGET "exclude_fields" = some a)
    (ha : a ≠ "")
    (hsplit : splitComma a = [a]) :
    ∃ d, dehydrate b = some { b with data := d } ∧
      (dkeys d).toFinset = (dkeys b.data).toFinset \ {a} ∧
      ∀ k ∈ dkeys d, dlookup d k = dlookup b.data k := by
  have hIK : ∀ k ∈ ((dkeys b.data).dedup).filter
      (fun k => decide (k ∉ splitComma a)), k ∈ dkeys b.data := by
    intro k hk
    exact List.mem_dedup.mp (List.mem_filter.mp hk).1
  obtain ⟨r, hr, hkeys, hvals⟩ := dcomp_spec hIK
  have hr' := hr
  simp only [decide_not] at hr'
  refine ⟨r, ?_, ?_, ?_⟩
  · simp [dehydrate, hinc, hexc, pyFalsy, ha, hr']
  · rw [hkeys]
    ext x
    simp [List.mem_filter, List.mem_dedup, hsplit, dkeys]
  · intro k hk
    rw [hkeys] at hk
    exact hvals k hk

/-- C9: when the request carries neither `include_fields` nor
`exclude_fields`, `dehydrate` returns the very same bundle, and when it
carries no `meta_only`, `alter_list_data_to_serialize` returns the data
unchanged. -/
theorem shaping_default_is_identity {α : Type} :
    (∀ b : Bundle α,
        dlookup b.requestGET "include_fields" = none →
        dlookup b.requestGET "exclude_fields" = none →
        dehydrate b = some b) ∧
    (∀ (requestGET : List (String × String)) (data : List (String × α)),
        dlookup requestGET "meta_only" = none →
        alter_list_data_to_serialize requestGET data = some data) := by
  constructor
  · intro b hinc hexc
    simp [dehydrate, hinc, hexc, pyFalsy]
  · intro g d hmeta
    simp [alter_list_data_to_serialize, hmeta, pyFalsy]

/-- C8: when the request carries `meta_only=1` and the list-response data
mapping has a `meta` key with value `m`, `alter_list_data_to_serialize`
returns the mapping containing only `meta ↦ m`; when `meta_only` is absent
it returns the data unchanged. -/
theorem alter_list_data_meta_only {α : Type} :
    (∀ (requestGET : List (String × String)) (data : List (String × α))
        (m : α),
        dlookup requestGET "meta_only" = some "1" →
        dlookup data "meta" = some m →
        alter_list_data_to_serialize requestGET data = some [("meta", m)]) ∧
    (∀ (requestGET : List (String × String)) (data : List (String × α)),
        dlookup requestGET "meta_only" = none →
        alter_list_data_to_serialize requestGET data = some data) := by
  constructor
  · intro g d m hmeta hm
    simp [alter_list_data_to_serialize, hmeta, hm, pyFalsy]
  · intro g d hmeta
    simp [alter_list_data_to_serialize, hmeta, pyFalsy]

/-- C5: whatever filtering parameters the request carries, whenever
`dehydrate` returns a bundle its data keys are a subset of the original data
keys; and when `include_fields` is falsy (absent or empty), unknown names in
`exclude_fields` are handled by the set difference alone, so `dehydrate`
always returns a bundle (no further validation, no error). -/
theorem dehydrate_keys_subset {α : Type} :
    (∀ b b' : Bundle α, dehydrate b = some b' →
        (dkeys b'.data).toFinset ⊆ (dkeys b.data).toFinset) ∧
    (∀ b : Bundle α,
        pyFalsy (dlookup b.requestGET "include_fields") = true →
        (dehydrate b).isSome = true) := by
  constructor
  · intro b b' h
    simp only [dehydrate] at h
    split at h
    · cases h
      exact Finset.Subset.refl _
    · obtain ⟨r, hr, hb'⟩ := Option.map_eq_some'.mp h
      intro x hx
      rw [← hb'] at hx
      simp only [List.mem_toFinset] at hx ⊢
      rw [dkeys_dcomp hr] at hx
      exact mem_dkeys_of_dcomp_some hr hx
  · intro b hfalsy
    simp only [dehydrate, hfalsy]
    by_cases hexc : pyFalsy (dlookup b.requestGET "exclude_fields") = true
    · simp [hexc]
    · simp only [Bool.not_eq_true] at hexc
      have hIK : ∀ k ∈ ((dkeys b.data).dedup).filter
          (fun k => decide (k ∉ splitComma
            ((dlookup b.requestGET "exclude_fields").getD ""))),
          k ∈ dkeys b.data := by
        intro k hk
        exact List.mem_dedup.mp (List.mem_filter.mp hk).1
      obtain ⟨r, hr, -, -⟩ := dcomp_spec hIK
      simp only [decide_not] at hr
      simp [hexc, hr]

/-- C10: there are inputs on which `dehydrate` raises `KeyError`: whenever
the request carries a truthy `include_fields` naming a field `f` that is not
a key of `bundle.data`, the dict comprehension indexes the data with the
missing key and the operation raises (`none`) instead of returning a
bundle. -/
theorem dehydrate_missing_include_raises {α : Type} (b : Bundle α)
    (s f : String)
    (hinc : dlookup b.requestGET "include_fields" = some s)
    (hs : s ≠ "")
    (hf : f ∈ splitComma s)
    (hfk : f ∉ dkeys b.data) :
    dehydrate b = none := by
  simp [dehydrate, hinc, pyFalsy, hs,
    dcomp_eq_none_of_missing hf (dlookup_eq_none_of_not_mem hfk)]

/-- C3: the wrapped view produced by `authorize_api` runs `method_check`,
then `throttle_check`, then `is_authenticated`, a later check only if every
earlier one returned without raising (the outcome is independent of the
later collaborators when an earlier one raises); when `is_authenticated`
raises `ImmediateHttpResponse`, the wrapped view returns that exception's
prepared response instead of calling the view; every other exception — from
any of the three checks or from the view — propagates unmodified. -/
theorem authorize_api_check_order {τ ν ρ : Type} :
    (∀ (mc : τ → List String → Except (PyExc ρ) Unit)
        (tc : τ → Except (PyExc ρ) Unit)
        (ia : ν → τ → Except (PyExc ρ) Unit)
        (vf : τ → Except (PyExc ρ) ρ)
        (am : List String) (ca : Option ν) (req : τ) (auth : ν)
        (e : PyExc ρ),
        mc req am = .error e →
        wrapped_view mc tc ia vf am ca req auth = (.error e, auth)) ∧
    (∀ (mc : τ → List String → Except (PyExc ρ) Unit)
        (tc : τ → Except (PyExc ρ) Unit)
        (ia : ν → τ → Except (PyExc ρ) Unit)
        (vf : τ → Except (PyExc ρ) ρ)
        (am : List String) (ca : Option ν) (req : τ) (auth : ν)
        (e : PyExc ρ),
        mc req am = .ok () → tc req = .error e →
        wrapped_view mc tc ia vf am ca req auth = (.error e, auth)) ∧
    (∀ (mc : τ → List String → Except (PyExc ρ) Unit)
        (tc : τ → Except (PyExc ρ) Unit)
        (ia : ν → τ → Except (PyExc ρ) Unit)
        (vf : τ → Except (PyExc ρ) ρ)
        (am : List String) (ca : Option ν) (req : τ) (auth : ν)
        (resp : ρ),
        mc req am = .ok () → tc req = .ok () →
        ia (ca.getD auth) req = .error (.immediateHttpResponse resp) →
        wrapped_view mc tc ia vf am ca req auth = (.ok resp, auth)) ∧
    (∀ (mc : τ → List String → Except (PyExc ρ) Unit)
        (tc : τ → Except (PyExc ρ) Unit)
        (ia : ν → τ → Except (PyExc ρ) Unit)
        (vf : τ → Except (PyExc ρ) ρ)
        (am : List String) (ca : Option ν) (req : τ) (auth : ν)
        (tag : String),
        mc req am = .ok () → tc req = .ok () →
        ia (ca.getD auth) req = .error (.other tag) →
        wrapped_view mc tc ia vf am ca req auth =
          (.error (.other tag), auth)) ∧
    (∀ (mc : τ → List String → Except (PyExc ρ) Unit)
        (tc : τ → Except (PyExc ρ) Unit)
        (ia : ν → τ → Except (PyExc ρ) Unit)
        (vf : τ → Except (PyExc ρ) ρ)
        (am : List String) (ca : Option ν) (req : τ) (auth : ν),
        mc req am = .ok () → tc req = .ok () →
        ia (ca.getD auth) req = .ok () →
        wrapped_view mc tc ia vf am ca req auth = (vf req, auth)) := by
  refine ⟨?_, ?_, ?_, ?_, ?_⟩
  · intro mc tc ia vf am ca req auth e hmc
    rw [wrapped_view.eq_def, hmc]
  · intro mc tc ia vf am ca req auth e hmc htc
    rw [wrapped_view.eq_def, hmc, htc]
  · intro mc tc ia vf am ca req auth resp hmc htc hia
    rw [wrapped_view.eq_def, hmc, htc]
    cases ca <;> simp_all [Option.getD]
  · intro mc tc ia vf am ca req auth tag hmc htc hia
    rw [wrapped_view.eq_def, hmc, htc]
    cases ca <;> simp_all [Option.getD]
  · intro mc tc ia vf am ca req auth hmc htc hia
    rw [wrapped_view.eq_def, hmc, htc]
    cases ca <;> simp_all [Option.getD]

/-- C4: for every request and every outcome of the wrapped call — normal
return, short-circuit response, or an exception from any check or from the
view — the wrapped view produced by `authorize_api` leaves
`resource._meta.authentication` (the second component of the result) equal
to its value before the call, whether or not a `custom_auth` substitute was
installed. -/
theorem authorize_api_restores_authentication {τ ν ρ : Type}
    (mc : τ → List String → Except (PyExc ρ) Unit)
    (tc : τ → Except (PyExc ρ) Unit)
    (ia : ν → τ → Except (PyExc ρ) Unit)
    (vf : τ → Except (PyExc ρ) ρ)
    (am : List String) (ca : Option ν) (req : τ) (auth : ν) :
    (wrapped_view mc tc ia vf am ca req auth).2 = auth := by
  rw [wrapped_view.eq_def]
  cases mc req am with
  | error e => rfl
  | ok u =>
    cases tc req with
    | error e => rfl
    | ok u =>
      cases hia : ia (match ca with | some c => c | none => auth) req with
      | error e => cases e <;> simp [hia]
      | ok u => simp [hia]

/-- C6: for every PUT or PATCH detail request whose `CONTENT_TYPE` starts
with `multipart/form-data` and that lacks a `_body` attribute, `put_detail`
and `patch_detail` reach the superclass implementation without raising,
after first setting `request._body` to the empty string. -/
theorem multipart_detail_sets_empty_body {β ρ : Type}
    (superPutDetail superPatchDetail : HttpRequest β → ρ)
    (req : HttpRequest β)
    (hct : pyStartsWith ((dlookup req.META "CONTENT_TYPE").getD "")
      "multipart/form-data" = true)
    (hbody : req.body = none) :
    put_detail superPutDetail req =
      superPutDetail { req with body := some "" } ∧
    patch_detail superPatchDetail req =
      superPatchDetail { req with body := some "" } := by
  constructor
  · rw [put_detail, ensureMultipartBody, hbody]
    simp [hct]
  · rw [patch_detail, ensureMultipartBody, hbody]
    simp [hct]

/-- C7: `deserialize` recognizes exactly two content types itself.  With the
format resolved (defaulting to the request's `CONTENT_TYPE`, or
`application/json` when that header is absent): when it equals
`application/x-www-form-urlencoded` the result is `request.POST`; when it
starts with `multipart/form-data` the result is a copy of `request.POST`
updated with `request.FILES`; for every other format the call delegates to
the superclass `deserialize` with the resolved format. -/
theorem deserialize_content_types {β δ σ : Type} :
    (∀ (sd : HttpRequest β → δ → String → σ) (req : HttpRequest β)
        (data : δ) (format : Option String),
        resolveFormat req format = "application/x-www-form-urlencoded" →
        deserialize sd req data format = .formData req.POST) ∧
    (∀ (sd : HttpRequest β → δ → String → σ) (req : HttpRequest β)
        (data : δ) (format : Option String),
        pyStartsWith (resolveFormat req format) "multipart/form-data" =
          true →
        deserialize sd req data format =
          .formData (qdUpdate req.POST req.FILES)) ∧
    (∀ (sd : HttpRequest β → δ → String → σ) (req : HttpRequest β)
        (data : δ) (format : Option String),
        resolveFormat req format ≠ "application/x-www-form-urlencoded" →
        pyStartsWith (resolveFormat req format) "multipart/form-data" =
          false →
        deserialize sd req data format =
          .superOut (sd req data (resolveFormat req format))) ∧
    (∀ req : HttpRequest β,
        resolveFormat req none =
          (dlookup req.META "CONTENT_TYPE").getD "application/json") := by
  refine ⟨?_, ?_, ?_, ?_⟩
  · intro sd req data format hfmt
    rw [deserialize]
    simp [hfmt]
  · intro sd req data format hfmt
    have hne : resolveFormat req format ≠
        "application/x-www-form-urlencoded" := by
      intro he
      rw [he] at hfmt
      exact absurd hfmt (by decide)
    rw [deserialize]
    simp [hne, hfmt]
  · intro sd req data format hne hfmt
    rw [deserialize]
    simp [hne, hfmt]
  · intro req
    rfl

/-! Concrete witnesses for the claim theorems with hypotheses. -/

theorem dehydrate_include_two_fields_witness :
    dehydrate (Bundle.mk [("include_fields", "a,b")]
        [("a", (1 : Nat)), ("b", 2), ("c", 3)]) =
      some (Bundle.mk [("include_fields", "a,b")] [("a", 1), ("b", 2)]) :=
  (dehydrate_include_two_fields
    (Bundle.mk [("include_fields", "a,b")] [("a", 1), ("b", 2), ("c", 3)])
    "a,b" "a" "b" 1 2 rfl (by decide) rfl rfl).1

theorem dehydrate_exclude_field_witness :
    ∃ d, dehydrate (Bundle.mk [("exclude_fields", "a")]
        [("a", (1 : Nat)), ("b", 2)]) =
      some (Bundle.mk [("exclude_fields", "a")] d) ∧
      (dkeys d).toFinset =
        (dkeys [("a", (1 : Nat)), ("b", 2)]).toFinset \ {"a"} ∧
      ∀ k ∈ dkeys d,
        dlookup d k = dlookup [("a", (1 : Nat)), ("b", 2)] k :=
  dehydrate_exclude_field
    (Bundle.mk [("exclude_fields", "a")] [("a", 1), ("b", 2)])
    "a" rfl rfl (by decide) (by decide)

theorem authorize_api_check_order_witness :
    wrapped_view (fun (_ : Nat) (_ : List String) => Except.ok ())
      (fun _ => Except.ok ())
      (fun (_ : String) _ =>
        Except.error (PyExc.immediateHttpResponse "denied"))
      (fun _ => Except.ok "viewed")
      ["GET"] (some "custom") 0 "orig" = (Except.ok "denied", "orig") :=
  authorize_api_check_order.2.2.1
    (fun _ _ => Except.ok ()) (fun _ => Except.ok ())
    (fun _ _ => Except.error (PyExc.immediateHttpResponse "denied"))
    (fun _ => Except.ok "viewed")
    ["GET"] (some "custom") 0 "orig" "denied" rfl rfl rfl

theorem dehydrate_keys_subset_witness :
    (dkeys ([("b", (2 : Nat))] : List (String × Nat))).toFinset ⊆
      (dkeys ([("a", (1 : Nat)), ("b", 2)] : List (String × Nat))).toFinset :=
  dehydrate_keys_subset.1
    (Bundle.mk [("exclude_fields", "a")] [("a", 1), ("b", 2)])
    (Bundle.mk [("exclude_fields", "a")] [("b", 2)])
    (by decide)

theorem multipart_detail_sets_empty_body_witness :
    put_detail (fun r => r.body)
      (HttpRequest.mk [("CONTENT_TYPE", "multipart/form-data; boundary=x")]
        ([] : List (String × Nat)) [] none) = some "" ∧
    patch_detail (fun r => r.body)
      (HttpRequest.mk [("CONTENT_TYPE", "multipart/form-data; boundary=x")]
        ([] : List (String × Nat)) [] none) = some "" :=
  multipart_detail_sets_empty_body (fun r => r.body) (fun r => r.body)
    (HttpRequest.mk [("CONTENT_TYPE", "multipart/form-data; boundary=x")]
      [] [] none)
    (by decide) rfl

theorem deserialize_content_types_witness :
    deserialize (fun (_ : HttpRequest Nat) (_ : Unit) (_ : String) => "super")
      (HttpRequest.mk [("CONTENT_TYPE", "multipart/form-data; boundary=x")]
        [("k", 1)] [("f", 2)] none) () none =
      DeserOut.formData [("k", 1), ("f", 2)] :=
  deserialize_content_types.2.1
    (fun _ _ _ => "super")
    (HttpRequest.mk [("CONTENT_TYPE", "multipart/form-data; boundary=x")]
      [("k", 1)] [("f", 2)] none)
    () none (by decide)

theorem alter_list_data_meta_only_witness :
    alter_list_data_to_serialize [("meta_only", "1")]
      [("meta", (5 : Nat)), ("objects", 7)] = some [("meta", 5)] :=
  alter_list_data_meta_only.1 [("meta_only", "1")]
    [("meta", 5), ("objects", 7)] 5 rfl rfl

theorem shaping_default_is_identity_witness :
    dehydrate (Bundle.mk [("other", "x")] [("a", (1 : Nat))]) =
      some (Bundle.mk [("other", "x")] [("a", 1)]) :=
  shaping_default_is_identity.1
    (Bundle.mk [("other", "x")] [("a", 1)]) rfl rfl

theorem dehydrate_missing_include_raises_witness :
    dehydrate (Bundle.mk [("include_fields", "zz")] [("a", (1 : Nat))]) =
      none :=
  dehydrate_missing_include_raises
    (Bundle.mk [("include_fields", "zz")] [("a", 1)])
    "zz" "zz" rfl (by decide) (by decide) (by decide)

end TastypieUtils
